import Mathlib

/-!
Shallow embedding of the gdb-natvis visualization engine, covering:

* `templates.py` — the template-type model, recursive-descent parser and
  pattern matcher;
* `natvis.py`   — format-specifier lexing, display-string parsing, the rule
  document model (`Expand` processing) and the rule manager with its
  filesystem discovery walk;
* `parser.py`   — the binary-operator dispatch of the full (clang-backed)
  expression evaluator, restricted to integer and boolean values.

Python strings are modelled as `List Char` with explicit positions, Python
exceptions as `Except` errors; an uncaught `IndexError` (out-of-range string
subscript) is a distinguished error constructor.  The parser in
`templates.py` uses unbounded iteration, embedded here with a fuel parameter
that is always instantiated to more than the input length.
-/

namespace GdbNatvis

/-- `templates.TemplateType`: a name plus an ordered list of template
arguments. -/
inductive TemplateType where
  | mk (name : String) (args : List TemplateType)
deriving Repr

def TemplateType.name : TemplateType → String
  | .mk n _ => n

def TemplateType.args : TemplateType → List TemplateType
  | .mk _ a => a

/-- `TemplateType.is_wildcard`: the name is exactly `"*"`. -/
def TemplateType.is_wildcard (t : TemplateType) : Bool :=
  t.name = "*"

mutual

/-- `TemplateType.__str__`: `name` alone when there are no arguments,
otherwise `name<a1, a2, ...>`. -/
def TemplateType.render : TemplateType → String
  | .mk n [] => n
  | .mk n (a :: as) => n ++ "<" ++ TemplateType.renderArgs (a :: as) ++ ">"

/-- The `", ".join(str(x) for x in self.args)` part of `__str__`. -/
def TemplateType.renderArgs : List TemplateType → String
  | [] => ""
  | [t] => TemplateType.render t
  | t :: u :: us => TemplateType.render t ++ ", " ++ TemplateType.renderArgs (u :: us)

end

mutual

/-- `TemplateType.matches` threads the Python `matched_args` list (which the
source mutates in place) as explicit state: the result is the returned
boolean together with the final list.  Mirrors the source order: the
wildcard check, then the length check, then the pairwise argument loop
(short-circuiting on the first failure), and the name comparison last. -/
def TemplateType.matchesAcc : TemplateType → TemplateType → List String → Bool × List String
  | .mk sname sargs, other, acc =>
      if sname = "*" then
        (true, acc ++ [other.name])
      else if sargs.length ≠ other.args.length then
        (false, acc)
      else
        match TemplateType.matchesList sargs other.args acc with
        | (false, acc1) => (false, acc1)
        | (true, acc1) => (sname = other.name, acc1)

/-- The `for left, right in zip(...)` loop of `TemplateType.matches`. -/
def TemplateType.matchesList : List TemplateType → List TemplateType → List String → Bool × List String
  | [], _, acc => (true, acc)
  | _ :: _, [], acc => (true, acc)
  | l :: ls, r :: rs, acc =>
      match TemplateType.matchesAcc l r acc with
      | (false, acc1) => (false, acc1)
      | (true, acc1) => TemplateType.matchesList ls rs acc1

end

/-- `pattern.matches(instance, captured)` as used by the rule manager:
start from the already-captured list. -/
def TemplateType.matches (pattern instance_ : TemplateType) : Bool × List String :=
  TemplateType.matchesAcc pattern instance_ []

/-- Errors of the template-type parser.  `syntaxError` is
`templates.TemplateException` (carrying the position argument and message the
source passes); `indexError` is an uncaught Python `IndexError` from an
out-of-range string subscript; `fuelExhausted` is an artifact of the fueled
embedding and is unreachable for the fuel used by `parseTemplateType`. -/
inductive ParseError where
  | syntaxError (pos : Nat) (msg : String)
  | indexError
  | fuelExhausted
deriving Repr, DecidableEq

/-- `templates._skip_whitespace`, on the suffix starting at an absolute
index. -/
def skipWsAux : List Char → Nat → Nat
  | [], i => i
  | c :: rest, i => if c.isWhitespace then skipWsAux rest (i + 1) else i

def skipWhitespace (input : List Char) (start : Nat) : Nat :=
  skipWsAux (input.drop start) start

/-- `str.rstrip()` restricted to whitespace. -/
def rstrip (l : List Char) : List Char :=
  (l.reverse.dropWhile Char.isWhitespace).reverse

/-- Python slice `input[a:b]`. -/
def slice (input : List Char) (a b : Nat) : List Char :=
  (input.drop a).take (b - a)

/-- `TEMPLATE_LIST_REGEX.search(input, start)`: the first position `≥ start`
holding `<`, `>` or `,`, with the character found. -/
def findTemplateCharAux : List Char → Nat → Option (Nat × Char)
  | [], _ => none
  | c :: rest, i =>
      if c = '<' ∨ c = '>' ∨ c = ',' then some (i, c)
      else findTemplateCharAux rest (i + 1)

def findTemplateChar (input : List Char) (start : Nat) : Option (Nat × Char) :=
  findTemplateCharAux (input.drop start) start

/-- The `while arg_start < len(input) and input[arg_start] != ">"` loop of
`templates._template_type_parse_runner`, with the recursive parse supplied
as a function argument.  The two bare `input[arg_start]` subscripts of the
source (lines 90 and 94) become explicit `indexError` results when the
index is out of range. -/
def argLoopF (runner : Nat → Except ParseError (TemplateType × Nat)) (input : List Char) :
    Nat → Nat → List TemplateType → Except ParseError (List TemplateType × Nat)
  | 0, _, _ => .error .fuelExhausted
  | fuel + 1, argStart, args =>
      if argStart < input.length ∧ input.getD argStart ' ' ≠ '>' then
        match runner argStart with
        | .error e => .error e
        | .ok (argType, argEnd) =>
            let args1 := args ++ [argType]
            let as1 := skipWhitespace input argEnd
            if as1 ≥ input.length then .error .indexError
            else if input.getD as1 ' ' = ',' then
              let as2 := skipWhitespace input (as1 + 1)
              if as2 ≥ input.length then .error .indexError
              else if input.getD as2 ' ' = '<' ∨ input.getD as2 ' ' = '>' ∨
                  input.getD as2 ' ' = ',' then
                .error (.syntaxError (as2 + 1) "Expected a type name")
              else argLoopF runner input fuel as2 args1
            else argLoopF runner input fuel as1 args1
      else .ok (args, argStart)

/-- `templates._template_type_parse_runner`, fueled. -/
def runnerF (input : List Char) : Nat → Nat → Except ParseError (TemplateType × Nat)
  | 0, _ => .error .fuelExhausted
  | fuel + 1, start =>
      match findTemplateChar input start with
      | none => .ok (.mk (String.mk (rstrip (input.drop start))) [], input.length)
      | some (nameEnd, c) =>
          if c = '>' ∨ c = ',' then
            .ok (.mk (String.mk (rstrip (slice input start nameEnd))) [], nameEnd)
          else
            match argLoopF (fun st => runnerF input fuel st) input (fuel + 1)
                (skipWhitespace input (nameEnd + 1)) [] with
            | .error e => .error e
            | .ok (args, argStart) =>
                if args.length = 0 then
                  .error (.syntaxError (argStart + 1)
                    "Found type with template list but no parameters!")
                else if argStart ≥ input.length ∨ input.getD argStart ' ' ≠ '>' then
                  .error (.syntaxError (argStart + 1) "Expected a closing angle bracket")
                else
                  .ok (.mk (String.mk (slice input start nameEnd)) args, argStart + 1)

/-- `templates.parse_template_type`. -/
def parseTemplateType (input : List Char) : Except ParseError TemplateType :=
  match runnerF input (input.length + 1) 0 with
  | .error e => .error e
  | .ok (t, e) =>
      if e < input.length then
        .error (.syntaxError (e + 1) "Input remained after reading entire type!")
      else .ok t

/-- The parse outcome is a `TemplateException` of the source. -/
def isSyntaxError {α : Type} : Except ParseError α → Bool
  | .error (.syntaxError _ _) => true
  | _ => false

/-- The parse outcome is an uncaught Python `IndexError`. -/
def isIndexError {α : Type} : Except ParseError α → Bool
  | .error .indexError => true
  | _ => false

example : parseTemplateType "test::template_class<vector<test>>".toList =
    .ok (.mk "test::template_class" [.mk "vector" [.mk "test" []]]) := by rfl

example : parseTemplateType "*<int>".toList = .ok (.mk "*" [.mk "int" []]) := by rfl

example : isSyntaxError (parseTemplateType "test::template_class<>".toList) = true := by rfl

example : isIndexError (parseTemplateType "Name<T".toList) = true := by rfl

/-- `natvis.FormatSpecifiers`. -/
inductive FormatSpecifiers where
  | DECIMAL_INT
  | OCTAL_INT
  | HEX_INT
  | HEX_INT_UPPER
  | CHARACTER
  | STRING
  | STRING_NO_QUOTES
  | WIDE_STRING
  | WIDE_STRING_NO_QUOTES
  | UTF32_STRING
  | UTF32_STRING_NO_QUOTES
  | ENUM
  | HEAP_VARIABLE
  | NO_ADDRESS
  | NO_DERIVED
deriving Repr, DecidableEq

/-- The alias table of `natvis.FormatSpecifiers`, in enum declaration order
with each alias tuple in its source order. -/
def specifierTable : List (FormatSpecifiers × List String) :=
  [(.DECIMAL_INT, ["d"]),
   (.OCTAL_INT, ["o"]),
   (.HEX_INT, ["x", "h", "hr", "wc", "wm"]),
   (.HEX_INT_UPPER, ["X", "H"]),
   (.CHARACTER, ["c"]),
   (.STRING, ["s", "sa"]),
   (.STRING_NO_QUOTES, ["sb", "s8b"]),
   (.WIDE_STRING, ["su", "bstr"]),
   (.WIDE_STRING_NO_QUOTES, ["sub"]),
   (.UTF32_STRING, ["s32"]),
   (.UTF32_STRING_NO_QUOTES, ["s32b"]),
   (.ENUM, ["en"]),
   (.HEAP_VARIABLE, ["hv"]),
   (.NO_ADDRESS, ["na"]),
   (.NO_DERIVED, ["nd"])]

/-- The inner double loop of `natvis.parse_format_specifier` at one
position: the longest alias matching at `pos` (strictly-longer wins, so the
first entry in table order wins ties). -/
def bestMatchAt (spec : List Char) (pos : Nat) : Option (FormatSpecifiers × Nat) :=
  specifierTable.foldl
    (fun cur entry =>
      entry.2.foldl
        (fun cur name =>
          let nameC := name.toList
          if (spec.drop pos).take nameC.length = nameC then
            match cur with
            | none => some (entry.1, nameC.length)
            | some (_, len) =>
                if nameC.length > len then some (entry.1, nameC.length) else cur
          else cur)
        cur)
    none

/-- The `while pos < len(spec)` loop of `natvis.parse_format_specifier`.
Every alias is non-empty so each step advances by at least one character;
fuel `spec.length + 1` therefore never runs out. -/
def parseFormatSpecF : Nat → List Char → Nat → List FormatSpecifiers
  | 0, _, _ => []
  | fuel + 1, spec, pos =>
      if pos < spec.length then
        match bestMatchAt spec pos with
        | none => parseFormatSpecF fuel spec (pos + 1)
        | some (m, len) => m :: parseFormatSpecF fuel spec (pos + len)
      else []

/-- `natvis.parse_format_specifier`, with the lazy generator forced into a
list (as every caller in the source does). -/
def parseFormatSpecifier (spec : List Char) : List FormatSpecifiers :=
  parseFormatSpecF (spec.length + 1) spec 0

example : parseFormatSpecifier "d".toList = [.DECIMAL_INT] := by rfl
example : parseFormatSpecifier "hr".toList = [.HEX_INT] := by rfl
example : parseFormatSpecifier "s32b".toList = [.UTF32_STRING_NO_QUOTES] := by rfl
example : parseFormatSpecifier "q".toList = [] := by rfl

/-- `str.lstrip()` restricted to whitespace. -/
def lstrip (l : List Char) : List Char :=
  l.dropWhile Char.isWhitespace

/-- Python `.lstrip().rstrip()` as used throughout `natvis.py`. -/
def pyStrip (l : List Char) : List Char :=
  rstrip (lstrip l)

/-- Index of the last occurrence of `c` in `l`, accumulator form. -/
def lastIndexOfAux : List Char → Char → Nat → Option Nat → Option Nat
  | [], _, _, best => best
  | x :: xs, c, i, best =>
      lastIndexOfAux xs c (i + 1) (if x = c then some i else best)

def lastIndexOf (l : List Char) (c : Char) : Option Nat :=
  lastIndexOfAux l c 0 none

/-- Python `expression.rsplit(",", 1)`: split at the last comma, wherever it
is — parenthesis or bracket nesting is not considered. -/
def rsplitComma1 (l : List Char) : List Char × Option (List Char) :=
  match lastIndexOf l ',' with
  | none => (l, none)
  | some i => (l.take i, some (l.drop (i + 1)))

/-- `natvis.ARRAY_LENGTH_REGEX` = `^(?:\[(.*)\])?(.*)$` applied to `format`:
the optional group participates exactly when the string starts with `[` and
a `]` follows; the greedy inner `.*` then reaches the last `]`. -/
def arrayLengthSplit (format : List Char) : Option (List Char) × List Char :=
  match format with
  | '[' :: rest =>
      match lastIndexOf rest ']' with
      | some i => (some (rest.take i), rest.drop (i + 1))
      | none => (none, format)
  | _ => (none, format)

/-- `natvis.FormatExpression` (fields set by `__init__`). -/
structure FormatExpression where
  base_expression : String
  array_length : Option String
  formatspecs : Option (List FormatSpecifiers)
deriving Repr, DecidableEq

/-- `natvis.FormatExpression.__init__`. -/
def mkFormatExpression (expression : List Char) : FormatExpression :=
  match rsplitComma1 expression with
  | (base, none) => ⟨String.mk base, none, none⟩
  | (base, some fmtRaw) =>
      let format := pyStrip fmtRaw
      let split := arrayLengthSplit format
      ⟨String.mk base, split.1.map String.mk, some (parseFormatSpecifier split.2)⟩

example : mkFormatExpression "x".toList = ⟨"x", none, none⟩ := by rfl
example : mkFormatExpression "x,d".toList = ⟨"x", none, some [.DECIMAL_INT]⟩ := by rfl
example : mkFormatExpression "buf,[len]x".toList = ⟨"buf", some "len", some [.HEX_INT]⟩ := by
  rfl

/-- The state produced by `natvis.DisplayStringParser.__init__`. -/
structure DisplayStringParser where
  template_string : String
  code_parts : List FormatExpression
deriving Repr, DecidableEq

/-- `"{{{}}}".format(len(self.code_parts))`: the positional placeholder. -/
def placeholder (n : Nat) : List Char :=
  '\x7b' :: (toString n).toList ++ ['\x7d']

/-- The character loop of `natvis.DisplayStringParser.__init__`.  The
Python `skip_next` flag is realised by consuming two characters at once in
the escape branches; the one-character lookahead `next` is the head of
`rest` (empty string at the end of input). -/
def displayLoop : List Char → Bool → List Char → List Char → List FormatExpression →
    List Char × List FormatExpression
  | [], _, _, tmpl, parts => (tmpl, parts)
  | c :: rest, true, cur, tmpl, parts =>
      if c = '\x7d' then
        displayLoop rest false [] tmpl (parts ++ [mkFormatExpression cur])
      else
        displayLoop rest true (cur ++ [c]) tmpl parts
  | c :: n :: rest2, false, cur, tmpl, parts =>
      if c = '\x7b' ∧ n = '\x7b' then
        displayLoop rest2 false cur (tmpl ++ ['\x7b', '\x7b']) parts
      else if c = '\x7d' ∧ n = '\x7d' then
        displayLoop rest2 false cur (tmpl ++ ['\x7d', '\x7d']) parts
      else if c = '\x7b' then
        displayLoop (n :: rest2) true [] (tmpl ++ placeholder parts.length) parts
      else
        displayLoop (n :: rest2) false cur (tmpl ++ [c]) parts
  | [c], false, _cur, tmpl, parts =>
      if c = '\x7b' then (tmpl ++ placeholder parts.length, parts)
      else (tmpl ++ [c], parts)

/-- `natvis.DisplayStringParser.__init__` over a whole string. -/
def displayStringParse (s : String) : DisplayStringParser :=
  let result := displayLoop s.toList false [] [] []
  ⟨String.mk result.1, result.2⟩

example : displayStringParse "\x7bx\x7d" = ⟨"\x7b0\x7d", [⟨"x", none, none⟩]⟩ := by rfl

example : displayStringParse "\x7b\x7b(\x7bx\x7d, \x7by\x7d, \x7bz\x7d), \x7bw\x7d\x7d\x7d" =
    ⟨"\x7b\x7b(\x7b0\x7d, \x7b1\x7d, \x7b2\x7d), \x7b3\x7d\x7d\x7d",
     [⟨"x", none, none⟩, ⟨"y", none, none⟩, ⟨"z", none, none⟩, ⟨"w", none, none⟩]⟩ := by rfl

example : displayStringParse "\x7bx,d\x7d" =
    ⟨"\x7b0\x7d", [⟨"x", none, some [.DECIMAL_INT]⟩]⟩ := by rfl

/-- An XML element after namespace stripping (`xml.etree.ElementTree.Element`
as consumed by `natvis.py`): local tag name, attributes, child elements in
document order, and text content (`None` for an empty element). -/
inductive Element where
  | mk (tag : String) (attrs : List (String × String)) (children : List Element)
      (text : Option String)

def Element.tag : Element → String
  | .mk t _ _ _ => t

def Element.attrs : Element → List (String × String)
  | .mk _ a _ _ => a

def Element.children : Element → List Element
  | .mk _ _ c _ => c

def Element.text : Element → Option String
  | .mk _ _ _ t => t

/-- `element.get(key, None)`. -/
def Element.getAttr (el : Element) (key : String) : Option String :=
  (el.attrs.find? (fun p => p.1 == key)).map (fun p => p.2)

/-- `element.find(tag)`: the first direct child with the given tag. -/
def Element.findChild (el : Element) (t : String) : Option Element :=
  el.children.find? (fun c => c.tag == t)

/-- `element.text.lstrip().rstrip()`.  The source would raise on a `None`
text; the documents exercised here always carry text, modelled by the empty
default. -/
def Element.strippedText (el : Element) : List Char :=
  pyStrip (el.text.getD "").toList

/-- `natvis.ExpandElement` and its two concrete subclasses.  These are the
only two subclasses `natvis.py` defines, even though its consumer
`printer.py` also dispatches on `natvis.ExpandArrayItems` and
`natvis.ExpandExpandedItem`. -/
inductive ExpandElement where
  | item (name : Option String) (expression : FormatExpression) (condition : Option String)
  | indexListItems (condition : Option String) (size_expr : String) (value_node : String)
deriving Repr, DecidableEq

/-- `NatvisType._parse_item_element`: the `ExpandItem` appended for one
`Item` child. -/
def parseItemElement (el : Element) : ExpandElement :=
  .item (el.getAttr "Name") (mkFormatExpression el.strippedText) (el.getAttr "Condition")

/-- `NatvisType._parse_index_list_items_element`: zero or one appended
directive — an `IndexListItems` missing a `Size` or `ValueNode` child is
silently dropped. -/
def parseIndexListItemsElement (el : Element) : List ExpandElement :=
  match el.findChild "Size", el.findChild "ValueNode" with
  | some sizeEl, some valueNodeEl =>
      [.indexListItems (el.getAttr "Condition") (String.mk sizeEl.strippedText)
        (String.mk valueNodeEl.strippedText)]
  | _, _ => []

/-- `NatvisType._process_expand`: the loop over the `Expand` element's
children.  Only `Item` and `IndexListItems` tags append to `expand_items`;
every other tag (including `ArrayItems` and `ExpandedItem`) falls through. -/
def processExpand (expandEl : Element) : List ExpandElement :=
  expandEl.children.foldl
    (fun acc child =>
      if child.tag == "Item" then acc ++ [parseItemElement child]
      else if child.tag == "IndexListItems" then acc ++ parseIndexListItemsElement child
      else acc)
    []

/-- `natvis.DisplayString`: one `DisplayString` element with its optional
condition. -/
structure DisplayString where
  condition : Option String
  parser : DisplayStringParser
deriving Repr, DecidableEq

/-- `natvis.NatvisType`, as stored by the manager: the parsed `Name`
pattern, the display strings in document order, and the optional expand
directives. -/
structure NatvisType where
  template_type : TemplateType
  display_parsers : List DisplayString
  expand_items : Option (List ExpandElement)

/-- `natvis.NatvisTypeInstance`: a matched rule with the captured template
arguments. -/
structure NatvisTypeInstance where
  type : NatvisType
  template_args : List String

/-- `NatvisTypeInstance.match_type`: run the pattern match with a fresh
capture list; `None` on failure. -/
def matchType (typename : TemplateType) (type : NatvisType) : Option NatvisTypeInstance :=
  match TemplateType.matchesAcc type.template_type typename [] with
  | (false, _) => none
  | (true, args) => some ⟨type, args⟩

/-- One pass of `NatvisManager.lookup_types` over a list of loaded rules,
in load order. -/
def matchList (loaded : List NatvisType) (typename : TemplateType) : List NatvisTypeInstance :=
  loaded.filterMap (matchType typename)

/-- The filesystem as seen by `natvis._find_natvis`: paths are component
lists (the root directory is `[]`, `os.path.dirname` drops the last
component), `docs` is the parse result `NatvisDocument.parse_file(path).types`
for a rule file.  The source checks `path.endswith(".natvis")` on the joined
path; since `".natvis"` contains no path separator this is equivalent to the
check on the last component, which is how `natvisFilesIn` states it. -/
structure Filesystem where
  isDir : List String → Bool
  listdir : List String → List String
  isFile : List String → Bool
  docs : List String → List NatvisType

/-- Python `s.endswith(suffix)`: the last `len(suffix)` characters equal the
suffix (false when `s` is shorter). -/
def strEndsWith (s suffix : String) : Bool :=
  s.toList.drop (s.toList.length - suffix.toList.length) == suffix.toList

example : strEndsWith "a.natvis" ".natvis" = true := by rfl
example : strEndsWith "notes.txt" ".natvis" = false := by rfl
example : strEndsWith "vis" ".natvis" = false := by rfl

/-- The inner `for child in os.listdir(dir)` loop of `natvis._find_natvis`:
regular files in `dir` whose name ends in `.natvis`, in listing order. -/
def natvisFilesIn (fs : Filesystem) (dir : List String) : List (List String) :=
  (fs.listdir dir).filterMap
    (fun child =>
      let path := dir ++ [child]
      if fs.isFile path ∧ strEndsWith child ".natvis" then some path else none)

/-- The `while os.path.dirname(dir) != dir` walk of `natvis._find_natvis`,
over the reversed component list of the start directory: each step scans the
directory and moves to its parent; the root (`[]`) is never scanned. -/
def findNatvisGo (fs : Filesystem) : List String → List (List String)
  | [] => []
  | r@(_ :: rest) => natvisFilesIn fs r.reverse ++ findNatvisGo fs rest

/-- `natvis._find_natvis`, with the lazy generator forced into a list (as
`_load_natvis_files` does). -/
def findNatvis (fs : Filesystem) (filename : List String) : List (List String) :=
  let dir := if fs.isDir filename then filename else filename.dropLast
  findNatvisGo fs dir.reverse

/-- `natvis.NatvisManager` state: the loaded rules across all documents (in
load order) and the loaded-file set. -/
structure NatvisManager where
  loaded_types : List NatvisType
  loaded_files : List (List String)

/-- `NatvisManager.__init__`. -/
def managerInit : NatvisManager := ⟨[], []⟩

/-- `NatvisManager.load_natvis_file`: a no-op for an already-loaded path,
otherwise record the path and append the document's rules. -/
def loadNatvisFile (fs : Filesystem) (m : NatvisManager) (path : List String) : NatvisManager :=
  if path ∈ m.loaded_files then m
  else ⟨m.loaded_types ++ fs.docs path, path :: m.loaded_files⟩

/-- `NatvisManager._load_natvis_files`: load every discovered rule file. -/
def loadNatvisFiles (fs : Filesystem) (m : NatvisManager) (filename : List String) :
    NatvisManager :=
  (findNatvis fs filename).foldl (fun acc p => loadNatvisFile fs acc p) m

/-- `NatvisManager.lookup_types` with the generator forced into a list: the
matches against the already-loaded rules; then, when a filename is supplied,
one discovery pass (`_load_natvis_files`) followed by a second match pass
over the full loaded list.  The third component counts the discovery passes
performed by the call (the state-based scan count of the specification). -/
def lookupTypes (fs : Filesystem) (m : NatvisManager) (typename : TemplateType)
    (filename : Option (List String)) : List NatvisTypeInstance × NatvisManager × Nat :=
  match filename with
  | none => (matchList m.loaded_types typename, m, 0)
  | some f =>
      let m1 := loadNatvisFiles fs m f
      (matchList m.loaded_types typename ++ matchList m1.loaded_types typename, m1, 1)

/-!
The full (clang-backed) expression evaluator of `parser.py`,
`ClangExpressionEvaluator.get_value`, restricted to the self-contained
fragment: integer and boolean values, literals, parentheses and the
binary-operator dispatch.  Member access, unary operators, subscripts and
casts consult the live gdb value and are external collaborators outside this
model; mixed-type coercions of the host language (such as `True + 1`) are
likewise out of scope and are mapped to `notModeled`, which no claim
exercises.
-/

/-- A Python value flowing through `get_value`, restricted to `int` and
`bool`. -/
inductive PyValue where
  | int (n : Int)
  | bool (b : Bool)
deriving Repr, DecidableEq

/-- Python truthiness, as used by `left_val and right_val` /
`left_val or right_val`. -/
def PyValue.truthy : PyValue → Bool
  | .int n => n ≠ 0
  | .bool b => b

inductive EvalError where
  | unhandledBinaryOperator (op : String)
  | zeroDivision
  | negativeShift
  | notModeled
deriving Repr, DecidableEq

/-- The `elif` chain on `op` in `ClangExpressionEvaluator.get_value` for
`CursorKind.BINARY_OPERATOR` (parser.py lines 124–155), in the branch order
of the source.  Note the `">>"` branch: the source computes
`left_val << right_val` there.  Python `//` on two ints is floor division
(`Int.fdiv`); `/` on anything else is float true division, outside the
model. -/
def evalBinaryOp (op : String) (l r : PyValue) : Except EvalError PyValue :=
  match op with
  | "==" =>
      match l, r with
      | .int a, .int b => .ok (.bool (a = b))
      | .bool a, .bool b => .ok (.bool (a = b))
      | _, _ => .error .notModeled
  | "!=" =>
      match l, r with
      | .int a, .int b => .ok (.bool (a ≠ b))
      | .bool a, .bool b => .ok (.bool (a ≠ b))
      | _, _ => .error .notModeled
  | "<" =>
      match l, r with
      | .int a, .int b => .ok (.bool (a < b))
      | _, _ => .error .notModeled
  | "<=" =>
      match l, r with
      | .int a, .int b => .ok (.bool (a ≤ b))
      | _, _ => .error .notModeled
  | ">" =>
      match l, r with
      | .int a, .int b => .ok (.bool (b < a))
      | _, _ => .error .notModeled
  | ">=" =>
      match l, r with
      | .int a, .int b => .ok (.bool (b ≤ a))
      | _, _ => .error .notModeled
  | "&&" => .ok (if l.truthy then r else l)
  | "||" => .ok (if l.truthy then l else r)
  | "-" =>
      match l, r with
      | .int a, .int b => .ok (.int (a - b))
      | _, _ => .error .notModeled
  | "+" =>
      match l, r with
      | .int a, .int b => .ok (.int (a + b))
      | _, _ => .error .notModeled
  | "*" =>
      match l, r with
      | .int a, .int b => .ok (.int (a * b))
      | _, _ => .error .notModeled
  | "/" =>
      match l, r with
      | .int a, .int b =>
          if b = 0 then .error .zeroDivision else .ok (.int (Int.fdiv a b))
      | _, _ => .error .notModeled
  | "<<" =>
      match l, r with
      | .int a, .int b =>
          if b < 0 then .error .negativeShift else .ok (.int (a * 2 ^ b.toNat))
      | _, _ => .error .notModeled
  | ">>" =>
      -- parser.py line 153: `return left_val << right_val`
      match l, r with
      | .int a, .int b =>
          if b < 0 then .error .negativeShift else .ok (.int (a * 2 ^ b.toNat))
      | _, _ => .error .notModeled
  | _ => .error (.unhandledBinaryOperator op)

/-- The expression-tree fragment of `get_value` that is independent of the
gdb backend. -/
inductive ClangExpr where
  | intLiteral (n : Int)
  | boolLiteral (b : Bool)
  | paren (e : ClangExpr)
  | binaryOp (op : String) (l r : ClangExpr)

/-- `ClangExpressionEvaluator.get_value` on the modelled fragment: literals,
`PAREN_EXPR`, and `BINARY_OPERATOR` (left operand evaluated before the
right, as in the source). -/
def getValue : ClangExpr → Except EvalError PyValue
  | .intLiteral n => .ok (.int n)
  | .boolLiteral b => .ok (.bool b)
  | .paren e => getValue e
  | .binaryOp op l r =>
      match getValue l with
      | .error e => .error e
      | .ok lv =>
          match getValue r with
          | .error e => .error e
          | .ok rv => evalBinaryOp op lv rv

example : getValue (.binaryOp "+" (.intLiteral 2) (.intLiteral 3)) = .ok (.int 5) := by rfl
example : getValue (.binaryOp "/" (.intLiteral (-7)) (.intLiteral 2)) = .ok (.int (-4)) := by
  rfl
example : getValue (.binaryOp ">>" (.intLiteral 8) (.intLiteral 1)) = .ok (.int 16) := by rfl

/-! ### Concrete fixtures used by the claim theorems -/

/-- A type name with no template arguments, matching no loaded rule. -/
def fooType : TemplateType := .mk "Foo" []

/-- A rule for `vector<*>`, as a loaded `NatvisType`. -/
def vecRule : NatvisType := ⟨.mk "vector" [.mk "*" []], [], none⟩

/-- An origin file `/home/main.cpp` whose directory holds one rule file. -/
def f1 : List String := ["home", "main.cpp"]

/-- A filesystem with one directory `/home` containing the rule file
`a.natvis` (carrying `vecRule`) and a non-rule file `notes.txt`. -/
def fs1 : Filesystem where
  isDir := fun p => p == ["home"]
  listdir := fun p => if p == ["home"] then ["a.natvis", "notes.txt"] else []
  isFile := fun p => p == ["home", "a.natvis"] || p == ["home", "notes.txt"]
  docs := fun p => if p == ["home", "a.natvis"] then [vecRule] else []

/-- An `Item` element: `<Item Name="first">a</Item>`. -/
def itemEl : Element := .mk "Item" [("Name", "first")] [] (some "a")

/-- `<Size>n</Size>`. -/
def sizeEl : Element := .mk "Size" [] [] (some "n")

/-- `<ValueNode>v[$i]</ValueNode>`. -/
def valueNodeEl : Element := .mk "ValueNode" [] [] (some "v[$i]")

/-- An `IndexListItems` element with both required children. -/
def indexListEl : Element := .mk "IndexListItems" [] [sizeEl, valueNodeEl] none

/-- An `ArrayItems` element with size and value-pointer children. -/
def arrayItemsEl : Element :=
  .mk "ArrayItems" [] [sizeEl, .mk "ValuePointer" [] [] (some "ptr")] none

/-- An `ExpandedItem` element. -/
def expandedItemEl : Element := .mk "ExpandedItem" [] [] (some "member")

/-- An `Expand` element with one child of each of the four directive kinds,
in document order. -/
def expandFixture : Element :=
  .mk "Expand" [] [itemEl, indexListEl, arrayItemsEl, expandedItemEl] none

/-- The pattern node `*`. -/
def wildcardPattern : TemplateType := .mk "*" []

/-- The instance node `pair<int, float>`. -/
def pairInstance : TemplateType := .mk "pair" [.mk "int" [], .mk "float" []]

/-! ### Helper lemmas about the rule manager -/

theorem loadNatvisFile_mem_mono (fs : Filesystem) (m : NatvisManager) (p q : List String)
    (h : q ∈ m.loaded_files) : q ∈ (loadNatvisFile fs m p).loaded_files := by
  unfold loadNatvisFile
  split
  · exact h
  · exact List.mem_cons_of_mem _ h

theorem loadNatvisFile_self_mem (fs : Filesystem) (m : NatvisManager) (p : List String) :
    p ∈ (loadNatvisFile fs m p).loaded_files := by
  unfold loadNatvisFile
  split
  · assumption
  · exact List.mem_cons_self _ _

theorem loadNatvisFile_of_mem (fs : Filesystem) (m : NatvisManager) (p : List String)
    (h : p ∈ m.loaded_files) : loadNatvisFile fs m p = m := by
  unfold loadNatvisFile
  rw [if_pos h]

theorem foldl_load_mem_mono (fs : Filesystem) (l : List (List String)) (m : NatvisManager)
    (q : List String) (h : q ∈ m.loaded_files) :
    q ∈ (l.foldl (fun acc p => loadNatvisFile fs acc p) m).loaded_files := by
  induction l generalizing m with
  | nil => exact h
  | cons x xs ih => exact ih _ (loadNatvisFile_mem_mono fs m x q h)

theorem foldl_load_mem (fs : Filesystem) (l : List (List String)) (m : NatvisManager) :
    ∀ p ∈ l, p ∈ (l.foldl (fun acc q => loadNatvisFile fs acc q) m).loaded_files := by
  induction l generalizing m with
  | nil => intro p hp; cases hp
  | cons x xs ih =>
      intro p hp
      rcases List.mem_cons.mp hp with hpx | hpxs
      · subst hpx
        exact foldl_load_mem_mono fs xs _ p (loadNatvisFile_self_mem fs m p)
      · exact ih _ p hpxs

theorem foldl_load_of_all_mem (fs : Filesystem) (l : List (List String)) (m : NatvisManager)
    (h : ∀ p ∈ l, p ∈ m.loaded_files) :
    l.foldl (fun acc q => loadNatvisFile fs acc q) m = m := by
  induction l with
  | nil => rfl
  | cons x xs ih =>
      have hx : loadNatvisFile fs m x = m :=
        loadNatvisFile_of_mem fs m x (h x (List.mem_cons_self _ _))
      simpa [hx] using ih (fun p hp => h p (List.mem_cons_of_mem _ hp))

theorem loadNatvisFiles_idem (fs : Filesystem) (m : NatvisManager) (f : List String) :
    loadNatvisFiles fs (loadNatvisFiles fs m f) f = loadNatvisFiles fs m f :=
  foldl_load_of_all_mem fs (findNatvis fs f) _ (foldl_load_mem fs (findNatvis fs f) m)

theorem loadNatvisFile_types_append (fs : Filesystem) (m : NatvisManager) (p : List String) :
    ∃ δ, (loadNatvisFile fs m p).loaded_types = m.loaded_types ++ δ := by
  unfold loadNatvisFile
  split
  · exact ⟨[], by simp⟩
  · exact ⟨fs.docs p, rfl⟩

theorem foldl_load_types_append (fs : Filesystem) (l : List (List String)) (m : NatvisManager) :
    ∃ Δ, (l.foldl (fun acc q => loadNatvisFile fs acc q) m).loaded_types =
      m.loaded_types ++ Δ := by
  induction l generalizing m with
  | nil => exact ⟨[], by simp⟩
  | cons x xs ih =>
      obtain ⟨δ, hδ⟩ := loadNatvisFile_types_append fs m x
      obtain ⟨Δ, hΔ⟩ := ih (loadNatvisFile fs m x)
      exact ⟨δ ++ Δ, by simp [hΔ, hδ]⟩

theorem loadNatvisFiles_types_append (fs : Filesystem) (m : NatvisManager) (f : List String) :
    ∃ Δ, (loadNatvisFiles fs m f).loaded_types = m.loaded_types ++ Δ :=
  foldl_load_types_append fs (findNatvis fs f) m

theorem matchList_append (a b : List NatvisType) (ty : TemplateType) :
    matchList (a ++ b) ty = matchList a ty ++ matchList b ty :=
  List.filterMap_append a b (matchType ty)

/-! ### Claim theorems -/

/-- C7: `load_natvis_file` is idempotent — loading the same path a second
time is a no-op, so the manager state (in particular the loaded-rule list)
after two loads of one path equals the state after one load, with no
duplicate rules. -/
theorem C7_load_idempotent (fs : Filesystem) (m : NatvisManager) (p : List String) :
    loadNatvisFile fs (loadNatvisFile fs m p) p = loadNatvisFile fs m p :=
  loadNatvisFile_of_mem fs _ p (loadNatvisFile_self_mem fs m p)

/-- C10: a lookup with a non-empty origin path yields every pre-discovery
match a second time: the result is the pre-discovery match list, followed by
that same list again, followed by the matches of the newly discovered rules
(the discovery pass only appends rules). -/
theorem C10_duplicate_yields (fs : Filesystem) (m : NatvisManager) (ty : TemplateType)
    (f : List String) :
    ∃ Δ, (loadNatvisFiles fs m f).loaded_types = m.loaded_types ++ Δ ∧
      (lookupTypes fs m ty (some f)).1 =
        (matchList m.loaded_types ty ++ matchList m.loaded_types ty) ++ matchList Δ ty := by
  obtain ⟨Δ, hΔ⟩ := loadNatvisFiles_types_append fs m f
  refine ⟨Δ, hΔ, ?_⟩
  simp [lookupTypes, hΔ, matchList_append]

/-- C1 (amended): the rule manager keeps no negative-result cache — every
lookup with a non-empty origin path performs one discovery scan, so two
identical lookups perform two scans (one each); the second scan changes the
manager state in no way because file loading is path-deduplicated. -/
theorem C1_no_negative_cache (fs : Filesystem) (m : NatvisManager) (ty : TemplateType)
    (f : List String) :
    (lookupTypes fs m ty (some f)).2.2 = 1 ∧
    (lookupTypes fs (lookupTypes fs m ty (some f)).2.1 ty (some f)).2.2 = 1 ∧
    (lookupTypes fs (lookupTypes fs m ty (some f)).2.1 ty (some f)).2.1 =
      (lookupTypes fs m ty (some f)).2.1 := by
  refine ⟨rfl, rfl, ?_⟩
  simpa [lookupTypes] using loadNatvisFiles_idem fs m f

example : TemplateType.matchesAcc (.mk "vector" [.mk "*" []]) fooType [] = (false, []) := rfl
example : findNatvis fs1 f1 = [["home", "a.natvis"]] := rfl
example : (loadNatvisFiles fs1 managerInit f1).loaded_files = [["home", "a.natvis"]] := rfl

/-- C1 (counterexample): on a concrete filesystem with one discoverable rule
file whose rules do not match, two identical lookups both come back empty
and two discovery scans happen, not one. -/
theorem C1_counterexample :
    (lookupTypes fs1 managerInit fooType (some f1)).1 = [] ∧
    (lookupTypes fs1 (lookupTypes fs1 managerInit fooType (some f1)).2.1 fooType
      (some f1)).1 = [] ∧
    (lookupTypes fs1 managerInit fooType (some f1)).2.2 +
      (lookupTypes fs1 (lookupTypes fs1 managerInit fooType (some f1)).2.1 fooType
        (some f1)).2.2 = 2 ∧
    (2 : Nat) ≠ 1 :=
  ⟨rfl, rfl, rfl, by decide⟩

/-- C2: processing an `Expand` element holding one `Item`, one
`IndexListItems`, one `ArrayItems` and one `ExpandedItem` child (in that
document order) produces only two expand directives — the `Item` and the
`IndexListItems`; the `ArrayItems` and `ExpandedItem` children are dropped
by `_process_expand`. -/
theorem C2_two_of_four_directives :
    processExpand expandFixture =
      [.item (some "first") ⟨"a", none, none⟩ none,
       .indexListItems none "n" "v[$i]"] ∧
    (processExpand expandFixture).length = 2 :=
  ⟨rfl, rfl⟩

/-- C3 (counterexample): the wildcard pattern matched against the instance
`pair<int, float>` succeeds but captures the bare name `"pair"`, not the
full rendered name `"pair<int, float>"` the claim asserts. -/
theorem C3_counterexample :
    TemplateType.matchesAcc wildcardPattern pairInstance [] = (true, ["pair"]) ∧
    TemplateType.render pairInstance = "pair<int, float>" ∧
    ("pair" : String) ≠ "pair<int, float>" :=
  ⟨rfl, rfl, by decide⟩

/-- C3 (amended): a wildcard pattern node matches any instance node
unconditionally and appends the instance node's bare name (`other.name`,
without its template-argument list) to the captured-arguments list. -/
theorem C3_wildcard_appends_name (w other : TemplateType) (acc : List String)
    (h : w.name = "*") :
    TemplateType.matchesAcc w other acc = (true, acc ++ [other.name]) := by
  cases w with
  | mk n args =>
      simp only [TemplateType.name] at h
      simp [TemplateType.matchesAcc, h]

/-- C3 (witness): the amended statement applied to the wildcard pattern and
the instance `pair<int, float>`. -/
theorem C3_witness :
    TemplateType.matchesAcc wildcardPattern pairInstance [] =
      (true, [] ++ [pairInstance.name]) :=
  C3_wildcard_appends_name wildcardPattern pairInstance [] rfl

/-- C4: the `">>"` branch of the binary-operator dispatch computes a left
shift — it agrees with the `"<<"` branch on every pair of values, and
evaluating `8 >> 1` through `get_value` yields `16` where a right shift
would yield `4`. -/
theorem C4_right_shift_is_left_shift :
    (∀ l r : PyValue, evalBinaryOp ">>" l r = evalBinaryOp "<<" l r) ∧
    getValue (.binaryOp ">>" (.intLiteral 8) (.intLiteral 1)) = .ok (.int 16) ∧
    ((16 : Int) = 4 → False) := by
  refine ⟨?_, rfl, by decide⟩
  intro l r
  cases l <;> cases r <;> rfl

/-- C9 (counterexample): evaluating `(-7) / 2` on two whole-number operands
yields `-4` (floor division), not the `-3` that truncation toward zero would
give. -/
theorem C9_counterexample :
    getValue (.binaryOp "/" (.intLiteral (-7)) (.intLiteral 2)) = .ok (.int (-4)) ∧
    ((-4 : Int) = -3 → False) :=
  ⟨rfl, by decide⟩

/-- C9 (amended): division between two whole-number operands uses the host
language's floor division (`//`, rounding toward negative infinity,
`Int.fdiv`), not truncation toward zero. -/
theorem C9_floor_division (a b : Int) (h : b ≠ 0) :
    evalBinaryOp "/" (.int a) (.int b) = .ok (.int (Int.fdiv a b)) := by
  simp [evalBinaryOp, h]

/-- C9 (witness): the amended statement at `(-7) / 2`. -/
theorem C9_witness :
    evalBinaryOp "/" (.int (-7)) (.int 2) = .ok (.int (Int.fdiv (-7) 2)) :=
  C9_floor_division (-7) 2 (by decide)

/-! ### Helper lemmas about the last-comma split -/

theorem lastIndexOfAux_of_not_mem (l : List Char) (c : Char) (i : Nat) (best : Option Nat)
    (h : c ∉ l) : lastIndexOfAux l c i best = best := by
  induction l generalizing i best with
  | nil => rfl
  | cons x xs ih =>
      have hx : ¬(x = c) := by
        intro hxc
        exact h (hxc ▸ List.mem_cons_self x xs)
      simp only [lastIndexOfAux, if_neg hx]
      exact ih (i + 1) best (fun hm => h (List.mem_cons_of_mem _ hm))

theorem lastIndexOfAux_append (s t : List Char) (i : Nat) (best : Option Nat)
    (h : ',' ∉ t) : lastIndexOfAux (s ++ ',' :: t) ',' i best = some (i + s.length) := by
  induction s generalizing i best with
  | nil =>
      have step : lastIndexOfAux (',' :: t) ',' i best =
          lastIndexOfAux t ',' (i + 1) (some i) := by
        simp [lastIndexOfAux]
      rw [List.nil_append, step, lastIndexOfAux_of_not_mem t ',' (i + 1) (some i) h]
      simp
  | cons x xs ih =>
      have step : lastIndexOfAux (x :: (xs ++ ',' :: t)) ',' i best =
          lastIndexOfAux (xs ++ ',' :: t) ',' (i + 1) (if x = ',' then some i else best) := by
        simp [lastIndexOfAux]
      rw [List.cons_append, step, ih (i + 1) (if x = ',' then some i else best)]
      congr 1
      simp only [List.length_cons]
      omega

theorem lastIndexOf_append (s t : List Char) (h : ',' ∉ t) :
    lastIndexOf (s ++ ',' :: t) ',' = some s.length := by
  unfold lastIndexOf
  rw [lastIndexOfAux_append s t 0 none h]
  simp

theorem rsplitComma1_append (s t : List Char) (h : ',' ∉ t) :
    rsplitComma1 (s ++ ',' :: t) = (s, some t) := by
  have h1 : (s ++ ',' :: t).take s.length = s := List.take_left s (',' :: t)
  have h2 : (s ++ ',' :: t).drop (s.length + 1) = t := by
    have h3 : (s ++ ',' :: t).drop s.length = ',' :: t := List.drop_left s (',' :: t)
    have h4 : ((s ++ ',' :: t).drop s.length).drop 1 = t := by
      rw [h3]
      rfl
    have h5 : ((s ++ ',' :: t).drop s.length).drop 1 = (s ++ ',' :: t).drop (s.length + 1) := by
      rw [List.drop_drop]
    rw [← h5, h4]
  simp only [rsplitComma1, lastIndexOf_append s t h]
  rw [h1, h2]

/-- C5 (counterexample): the capture `f(a,b)`, whose only comma is nested
inside parentheses, is still split at that comma: the code part's base
expression is `f(a`, not the whole captured text. -/
theorem C5_counterexample :
    displayStringParse "\x7bf(a,b)\x7d" = ⟨"\x7b0\x7d", [⟨"f(a", none, some []⟩]⟩ ∧
    ("f(a" : String) ≠ "f(a,b)" :=
  ⟨rfl, by decide⟩

/-- C5 (amended): the captured text is split on the last comma regardless of
nesting — everything before the last comma becomes the base expression and
the remainder becomes the format segment (stripped, split by the
array-length pattern, lexed into specifiers); `"\x7bx,d\x7d"` yields one
code part with base expression `x` and specifier list `[DECIMAL_INT]`. -/
theorem C5_last_comma_split :
    (∀ s t : List Char, ',' ∉ t →
      mkFormatExpression (s ++ ',' :: t) =
        ⟨String.mk s, ((arrayLengthSplit (pyStrip t)).1).map String.mk,
         some (parseFormatSpecifier (arrayLengthSplit (pyStrip t)).2)⟩) ∧
    displayStringParse "\x7bx,d\x7d" =
      ⟨"\x7b0\x7d", [⟨"x", none, some [.DECIMAL_INT]⟩]⟩ := by
  refine ⟨?_, rfl⟩
  intro s t h
  unfold mkFormatExpression
  rw [rsplitComma1_append s t h]

/-- C5 (witness): the amended split applied to the capture `x,d`. -/
theorem C5_witness :
    mkFormatExpression ("x".toList ++ ',' :: "d".toList) =
      ⟨String.mk "x".toList, ((arrayLengthSplit (pyStrip "d".toList)).1).map String.mk,
       some (parseFormatSpecifier (arrayLengthSplit (pyStrip "d".toList)).2)⟩ :=
  C5_last_comma_split.1 "x".toList "d".toList (by decide)

/-- C6: the five spec-listed malformations do fail with a
`TemplateException`, but the unmatched `<` input `Name<T` — an unmatched `<`
followed by a complete argument and end of input — instead escapes with an
uncaught `IndexError` from the bare `input[arg_start]` subscript at
templates.py line 90, contradicting the claim that no other kind of
exception occurs. -/
theorem C6_indexError_escapes :
    parseTemplateType "Name<T".toList = .error .indexError ∧
    isSyntaxError (parseTemplateType "Name<".toList) = true ∧
    isSyntaxError (parseTemplateType "Name>".toList) = true ∧
    isSyntaxError (parseTemplateType "Name<>".toList) = true ∧
    isSyntaxError (parseTemplateType "Name<T,>".toList) = true ∧
    isSyntaxError (parseTemplateType "Name<T,,>".toList) = true :=
  ⟨rfl, rfl, rfl, rfl, rfl, rfl⟩

/-! ### Helper lemma about the template-character scan -/

theorem findTemplateCharAux_some {l : List Char} {i j : Nat} {c : Char}
    (h : findTemplateCharAux l i = some (j, c)) :
    c ∈ l ∧ (c = '<' ∨ c = '>' ∨ c = ',') ∧ j < i + l.length := by
  induction l generalizing i with
  | nil => simp [findTemplateCharAux] at h
  | cons x xs ih =>
      by_cases hx : x = '<' ∨ x = '>' ∨ x = ','
      · rw [findTemplateCharAux, if_pos hx] at h
        obtain ⟨hj, hc⟩ := Prod.mk.injEq .. ▸ Option.some.injEq .. ▸ h
        subst hj
        subst hc
        refine ⟨List.mem_cons_self _ _, hx, ?_⟩
        simp only [List.length_cons]
        omega
      · rw [findTemplateCharAux, if_neg hx] at h
        obtain ⟨hc, hor, hj⟩ := ih h
        refine ⟨List.mem_cons_of_mem _ hc, hor, ?_⟩
        simp only [List.length_cons]
        omega

/-- C8 (counterexample): the parser accepts `*<int>` and produces a
wildcard node with a non-empty argument list, violating the invariant. -/
theorem C8_counterexample :
    parseTemplateType "*<int>".toList = .ok (.mk "*" [.mk "int" []]) ∧
    (TemplateType.mk "*" [.mk "int" []]).is_wildcard = true ∧
    (TemplateType.mk "*" [.mk "int" []]).args ≠ [] := by
  refine ⟨rfl, rfl, ?_⟩
  simp [TemplateType.args]

/-- C8 (amended): the parser does not enforce the wildcard invariant in
general (an explicit `*<...>` argument list is accepted); for accepted
inputs containing no `<` the result is a leaf, so in particular every
wildcard node in such a result has an empty argument list. -/
theorem C8_no_template_list_gives_leaf (s : List Char) (t : TemplateType)
    (h1 : '<' ∉ s) (h2 : parseTemplateType s = .ok t) : t.args = [] := by
  unfold parseTemplateType at h2
  rw [runnerF] at h2
  cases hfind : findTemplateChar s 0 with
  | none =>
      rw [hfind] at h2
      dsimp only at h2
      rw [if_neg (Nat.lt_irrefl s.length)] at h2
      have ht := Except.ok.inj h2
      rw [← ht]
      rfl
  | some p =>
      obtain ⟨j, c⟩ := p
      rw [hfind] at h2
      dsimp only at h2
      have spec : c ∈ s ∧ (c = '<' ∨ c = '>' ∨ c = ',') ∧ j < 0 + s.length := by
        have hfind2 : findTemplateCharAux s 0 = some (j, c) := by
          have hdz : s.drop 0 = s := List.drop_zero s
          rw [findTemplateChar, hdz] at hfind
          exact hfind
        exact findTemplateCharAux_some hfind2
      obtain ⟨hmem, hor, hj⟩ := spec
      have hcne : ¬(c = '<') := by
        intro hc
        exact h1 (hc ▸ hmem)
      have hor2 : c = '>' ∨ c = ',' := by
        rcases hor with h | h | h
        · exact absurd h hcne
        · exact Or.inl h
        · exact Or.inr h
      rw [if_pos hor2] at h2
      dsimp only at h2
      rw [if_pos (by omega : j < s.length)] at h2
      exact absurd h2 (by simp)

/-- C8 (witness): the amended statement at the accepted input `*`, whose
result is the childless wildcard node. -/
theorem C8_witness : (TemplateType.mk "*" []).args = [] :=
  C8_no_template_list_gives_leaf "*".toList (.mk "*" []) (by decide) (by rfl)

end GdbNatvis
